import Mathlib

/-!
Shallow embedding of the signal cache and calibrated data-extraction engine
of the repository (backend/operations and backend/service_handlers), over ℚ
for numeric data, with Python-level failures made explicit via `Except` /
`Option`.  Definitions are translated from the Python source; definitions
whose name ends in `SpecClaim` instead follow the natural-language
specification's words and exist only to be compared with the source
embedding.
-/

/-- Python exception kinds that the embedded code can surface. -/
inductive PyErr where
  | valueError
  | indexError
  | zeroDivisionError
  | calibrationError
  | nameError
  | typeError
  deriving DecidableEq, Repr

/-! ## AxisModel: conversion_functions.SpectrumConverter -/

/-- `SpectrumConverter.to_true_index`: `offset + scale * original_index`. -/
def to_true_index (offset scale : ℚ) (original_index : ℚ) : ℚ :=
  offset + scale * original_index

/-- `SpectrumConverter.to_original_index`: `(true_index - offset) / scale`.
The Python source performs the division unguarded; for `scale == 0` Python
raises `ZeroDivisionError`, which the embedding makes explicit. -/
def to_original_index (offset scale : ℚ) (true_index : ℚ) : Except PyErr ℚ :=
  if scale = 0 then .error .zeroDivisionError
  else .ok ((true_index - offset) / scale)

/-- The spec's words for `to_index`: `(value - offset) / scale`, failing with
`CalibrationError` when `scale == 0`.  Used only to compare against the
source embedding `to_original_index`. -/
def to_index_SpecClaim (offset scale : ℚ) (true_index : ℚ) : Except PyErr ℚ :=
  if scale = 0 then .error .calibrationError
  else .ok ((true_index - offset) / scale)

/-- Python's `round` (banker's rounding, half to even) on an exact rational. -/
def pyRound (q : ℚ) : ℤ :=
  let f := ⌊q⌋
  let r := q - f
  if r < 1 / 2 then f
  else if 1 / 2 < r then f + 1
  else if f % 2 = 0 then f else f + 1

/-- `data_functions.get_zero_index`: `int(round(-offset / scale))` if it lies
in `[0, size)`, else `None`; any exception (e.g. a zero scale) yields `None`. -/
def get_zero_index (offset scale : ℚ) (size : ℕ) : Option ℤ :=
  if scale = 0 then none
  else
    let z := pyRound (-offset / scale)
    if 0 ≤ z ∧ z < (size : ℤ) then some z else none

/-! ## Signals as N-dimensional arrays (numpy model) -/

/-- An N-dimensional numeric array: a shape (list of dimension sizes) and an
item function from multi-indices to values (`signal.data` in the source). -/
structure NDArr where
  shape : List ℕ
  item : List ℕ → ℚ

/-- A rectangular region request `{x1, y1, x2, y2}` with arbitrary integer
coordinates, as received from the frontend. -/
structure Region where
  x1 : ℤ
  y1 : ℤ
  x2 : ℤ
  y2 : ℤ

/-- `max(0, min(v, n - 1))`: the source's clamp of one region coordinate to
the valid index range of a dimension of size `n` (then used as a
non-negative slice index). -/
def clampIdx (v : ℤ) (n : ℕ) : ℕ :=
  (max 0 (min v ((n : ℤ) - 1))).toNat

/-- `spectrum_functions.extract_whole_spectrum_data`: 1D data is returned
verbatim (`tolist`), 3D data is summed over both spatial axes
(`np.sum(data, axis=(0, 1))`), anything else raises `ValueError`. -/
def extract_whole_spectrum_data (a : NDArr) : Except PyErr (List ℚ) :=
  match a.shape with
  | [n] => .ok ((List.range n).map fun i => a.item [i])
  | [h, w, c] =>
      .ok ((List.range c).map fun k =>
        ∑ y in Finset.range h, ∑ x in Finset.range w, a.item [y, x, k])
  | _ => .error .valueError

/-- `spectrum_functions.extract_spectrum_range`: unpacks the shape as
`(height, width, _)` (a `ValueError` for non-3D data), clamps each coordinate
with `max(0, min(v, size - 1))`, reorders so `x1 ≤ x2` and `y1 ≤ y2`, takes
the inclusive slice `data[y1:y2+1, x1:x2+1, :]` (numpy slices stop at the
array bound) and sums it over both spatial axes. -/
def extract_spectrum_range (a : NDArr) (r : Region) : Except PyErr (List ℚ) :=
  match a.shape with
  | [height, width, c] =>
      let x1 := clampIdx r.x1 width
      let x2 := clampIdx r.x2 width
      let y1 := clampIdx r.y1 height
      let y2 := clampIdx r.y2 height
      .ok ((List.range c).map fun k =>
        ∑ y in Finset.Ico (min y1 y2) (min (max y1 y2 + 1) height),
          ∑ x in Finset.Ico (min x1 x2) (min (max x1 x2 + 1) width),
            a.item [y, x, k])
  | _ => .error .valueError

/-- The spec's words for `extract_region`: clamp `x1, x2` to `[0, width]` and
`y1, y2` to `[0, height]`, reorder, and sum the selected (half-open)
sub-array, so a zero-area region yields an all-zero spectrum.  Used only to
compare against the source embedding `extract_spectrum_range`. -/
def extract_region_SpecClaim (a : NDArr) (r : Region) : Except PyErr (List ℚ) :=
  match a.shape with
  | [height, width, c] =>
      let x1 := (max 0 (min r.x1 (width : ℤ))).toNat
      let x2 := (max 0 (min r.x2 (width : ℤ))).toNat
      let y1 := (max 0 (min r.y1 (height : ℤ))).toNat
      let y2 := (max 0 (min r.y2 (height : ℤ))).toNat
      .ok ((List.range c).map fun k =>
        ∑ y in Finset.Ico (min y1 y2) (max y1 y2),
          ∑ x in Finset.Ico (min x1 x2) (max x1 x2),
            a.item [y, x, k])
  | _ => .error .valueError

/-! ## Theorems for claims C4, C5, C6 -/

/-- C6: for every axis model with `scale ≠ 0` and every index `i`,
`to_original_index (to_true_index i) = i` exactly over rational arithmetic
(round-trip identity). -/
theorem roundtrip_to_index_to_physical (offset scale i : ℚ) (hs : scale ≠ 0) :
    to_original_index offset scale (to_true_index offset scale i) = .ok i := by
  simp only [to_original_index, to_true_index, if_neg hs]
  congr 1
  field_simp

theorem roundtrip_to_index_to_physical_witness :
    (3 : ℚ) ≠ 0 ∧
      to_original_index 7 3 (to_true_index 7 3 5) = .ok 5 :=
  ⟨by norm_num, roundtrip_to_index_to_physical 7 3 5 (by norm_num)⟩

/-- C5 counterexample: at `offset = 0`, `scale = 0`, `value = 5` the source's
`to_original_index` raises `ZeroDivisionError` (unguarded division), while the
claim's `to_index` fails with `CalibrationError`; the two disagree. -/
theorem to_index_calibration_counterexample :
    to_original_index 0 0 5 = .error .zeroDivisionError ∧
      to_index_SpecClaim 0 0 5 = .error .calibrationError ∧
      to_original_index 0 0 5 ≠ to_index_SpecClaim 0 0 5 := by
  refine ⟨rfl, rfl, ?_⟩
  rw [to_original_index, to_index_SpecClaim]
  simp

/-- C5 (amended): `to_index` returns `(value - offset) / scale` when
`scale ≠ 0`, and when `scale == 0` it performs the division unguarded, so it
fails with Python's `ZeroDivisionError` — the code defines no
`CalibrationError`. -/
theorem to_original_index_spec (offset scale v : ℚ) :
    (scale ≠ 0 → to_original_index offset scale v = .ok ((v - offset) / scale)) ∧
      (scale = 0 → to_original_index offset scale v = .error .zeroDivisionError) := by
  constructor
  · intro hs
    simp [to_original_index, hs]
  · intro hs
    simp [to_original_index, hs]

theorem to_original_index_spec_witness :
    to_original_index 1 2 5 = .ok 2 ∧ to_original_index 1 0 5 = .error .zeroDivisionError := by
  constructor
  · have h := (to_original_index_spec 1 2 5).1 (by norm_num)
    rw [h]
    norm_num
  · exact (to_original_index_spec 1 0 5).2 rfl

/-- C4: for every axis with `scale ≠ 0` and `size > 0`, the zero-index
computation returns `round(-offset / scale)` (which, being in range, equals
its clamp to `[0, size-1]`) whenever that value lies in `[0, size-1]`, and
returns `None` when it falls outside the axis range. -/
theorem get_zero_index_spec (offset scale : ℚ) (size : ℕ)
    (hs : scale ≠ 0) (hsz : 0 < size) :
    (0 ≤ pyRound (-offset / scale) ∧ pyRound (-offset / scale) ≤ (size : ℤ) - 1 →
      get_zero_index offset scale size =
        some (min (max (pyRound (-offset / scale)) 0) ((size : ℤ) - 1))) ∧
      (¬(0 ≤ pyRound (-offset / scale) ∧ pyRound (-offset / scale) ≤ (size : ℤ) - 1) →
        get_zero_index offset scale size = none) := by
  constructor
  · rintro ⟨h0, h1⟩
    have hmax : max (pyRound (-offset / scale)) 0 = pyRound (-offset / scale) :=
      max_eq_left h0
    have hmin : min (pyRound (-offset / scale)) ((size : ℤ) - 1) =
        pyRound (-offset / scale) := min_eq_left h1
    rw [hmax, hmin]
    simp only [get_zero_index, if_neg hs]
    rw [if_pos ⟨h0, by omega⟩]
  · intro h
    simp only [get_zero_index, if_neg hs]
    rw [if_neg]
    intro ⟨h0, h1⟩
    exact h ⟨h0, by omega⟩

theorem get_zero_index_spec_witness :
    get_zero_index (-2) 1 10 = some 2 ∧ get_zero_index (-20) 1 10 = none := by
  have he2 : (-(-2 : ℚ) / 1) = 2 := by norm_num
  have he20 : (-(-20 : ℚ) / 1) = 20 := by norm_num
  have hr2 : pyRound (-(-2 : ℚ) / 1) = 2 := by
    rw [he2]
    simp [pyRound]
  have hr20 : pyRound (-(-20 : ℚ) / 1) = 20 := by
    rw [he20]
    simp [pyRound]
  constructor
  · have h := (get_zero_index_spec (-2) 1 10 (by norm_num) (by norm_num)).1
    rw [h (by rw [hr2]; omega), hr2]
    norm_num
  · have h := (get_zero_index_spec (-20) 1 10 (by norm_num) (by norm_num)).2
    rw [h (by rw [hr20]; omega)]

/-! ## Theorems for claims C8, C1 -/

/-- C8: for every signal, `extract_whole_spectrum_data` returns the data
verbatim when 1D (output length equals the signal's own length), the
per-channel sum over both spatial axes when 3D with convention
(height, width, channel) (output length equals the last-axis size), and fails
with the unsupported-dimensionality error (the spec's `ShapeError`, a Python
`ValueError` in the source) for any other dimensionality. -/
theorem extract_whole_spectrum_data_spec (a : NDArr) :
    (∀ n, a.shape = [n] →
      ∃ ys, extract_whole_spectrum_data a = .ok ys ∧ ys.length = n ∧
        ∀ i, i < n → ys.get? i = some (a.item [i])) ∧
    (∀ h w c, a.shape = [h, w, c] →
      ∃ ys, extract_whole_spectrum_data a = .ok ys ∧ ys.length = c ∧
        ∀ k, k < c → ys.get? k =
          some (∑ y in Finset.range h, ∑ x in Finset.range w, a.item [y, x, k])) ∧
    (a.shape.length ≠ 1 ∧ a.shape.length ≠ 3 →
      extract_whole_spectrum_data a = .error .valueError) := by
  refine ⟨?_, ?_, ?_⟩
  · intro n hsh
    refine ⟨(List.range n).map fun i => a.item [i], ?_, by simp, ?_⟩
    · simp [extract_whole_spectrum_data, hsh]
    · intro i hi
      rw [List.get?_map, List.get?_range hi]
      rfl
  · intro h w c hsh
    refine ⟨(List.range c).map fun k =>
      ∑ y in Finset.range h, ∑ x in Finset.range w, a.item [y, x, k], ?_, by simp, ?_⟩
    · simp [extract_whole_spectrum_data, hsh]
    · intro k hk
      rw [List.get?_map, List.get?_range hk]
      rfl
  · rintro ⟨h1, h3⟩
    rcases hsh : a.shape with _ | ⟨s1, _ | ⟨s2, _ | ⟨s3, _ | ⟨s4, rest⟩⟩⟩⟩ <;>
      simp [hsh] at h1 h3 ⊢ <;>
      simp [extract_whole_spectrum_data, hsh]

theorem extract_whole_spectrum_data_spec_witness :
    (⟨[2], fun l => (l.headD 0 : ℚ)⟩ : NDArr).shape = [2] ∧
      (extract_whole_spectrum_data ⟨[2], fun l => (l.headD 0 : ℚ)⟩).isOk = true := by
  obtain ⟨ys, h1, h2, _⟩ :=
    (extract_whole_spectrum_data_spec ⟨[2], fun l => (l.headD 0 : ℚ)⟩).1 2 rfl
  exact ⟨rfl, by rw [h1]; rfl⟩

/-- The lower of the two clamped coordinates (the reordered `x1`/`y1`). -/
def clampLo (v1 v2 : ℤ) (n : ℕ) : ℕ := min (clampIdx v1 n) (clampIdx v2 n)

/-- The higher of the two clamped coordinates (the reordered `x2`/`y2`). -/
def clampHi (v1 v2 : ℤ) (n : ℕ) : ℕ := max (clampIdx v1 n) (clampIdx v2 n)

theorem clampIdx_le (v : ℤ) (n : ℕ) (hn : 0 < n) : clampIdx v n ≤ n - 1 := by
  unfold clampIdx
  have h1 : min v ((n : ℤ) - 1) ≤ (n : ℤ) - 1 := min_le_right _ _
  have h2 : max 0 (min v ((n : ℤ) - 1)) ≤ (n : ℤ) - 1 := max_le (by omega) h1
  omega

/-- C1 (amended): for every 3D signal of shape (height, width, channels) with
`height, width ≥ 1` and every integer region, `extract_spectrum_range` clamps
`x1, x2` to `[0, width-1]` and `y1, y2` to `[0, height-1]`, reorders so
`x1 ≤ x2` and `y1 ≤ y2`, then sums the *inclusive* sub-array
`data[y1..y2, x1..x2]` over both spatial axes, producing one value per
channel without error; the clamped region always contains at least one pixel
(its bounds satisfy `lo ≤ hi ≤ size-1`), so a degenerate region yields the
spectrum of the nearest in-bounds pixel, never an all-zero spectrum. -/
theorem extract_spectrum_range_spec (a : NDArr) (r : Region) (h w c : ℕ)
    (hsh : a.shape = [h, w, c]) (hh : 0 < h) (hw : 0 < w) :
    ∃ ys, extract_spectrum_range a r = .ok ys ∧ ys.length = c ∧
      (∀ k, k < c → ys.get? k = some (
        ∑ y in Finset.Icc (clampLo r.y1 r.y2 h) (clampHi r.y1 r.y2 h),
          ∑ x in Finset.Icc (clampLo r.x1 r.x2 w) (clampHi r.x1 r.x2 w),
            a.item [y, x, k])) ∧
      clampLo r.y1 r.y2 h ≤ clampHi r.y1 r.y2 h ∧
      clampLo r.x1 r.x2 w ≤ clampHi r.x1 r.x2 w ∧
      clampHi r.y1 r.y2 h ≤ h - 1 ∧ clampHi r.x1 r.x2 w ≤ w - 1 ∧
      (Finset.Icc (clampLo r.y1 r.y2 h) (clampHi r.y1 r.y2 h)).Nonempty := by
  have hyhi : clampHi r.y1 r.y2 h ≤ h - 1 :=
    max_le (clampIdx_le _ _ hh) (clampIdx_le _ _ hh)
  have hxhi : clampHi r.x1 r.x2 w ≤ w - 1 :=
    max_le (clampIdx_le _ _ hw) (clampIdx_le _ _ hw)
  have hymin : min (max (clampIdx r.y1 h) (clampIdx r.y2 h) + 1) h =
      max (clampIdx r.y1 h) (clampIdx r.y2 h) + 1 := by
    have := hyhi
    unfold clampHi at this
    omega
  have hxmin : min (max (clampIdx r.x1 w) (clampIdx r.x2 w) + 1) w =
      max (clampIdx r.x1 w) (clampIdx r.x2 w) + 1 := by
    have := hxhi
    unfold clampHi at this
    omega
  refine ⟨(List.range c).map fun k =>
      ∑ y in Finset.Icc (clampLo r.y1 r.y2 h) (clampHi r.y1 r.y2 h),
        ∑ x in Finset.Icc (clampLo r.x1 r.x2 w) (clampHi r.x1 r.x2 w),
          a.item [y, x, k], ?_, by simp, ?_, ?_, ?_, hyhi, hxhi, ?_⟩
  · simp only [extract_spectrum_range, hsh]
    rw [hymin, hxmin]
    simp only [clampLo, clampHi, Nat.Ico_succ_right]
  · intro k hk
    rw [List.get?_map, List.get?_range hk]
    rfl
  · exact min_le_max
  · exact min_le_max
  · exact Finset.nonempty_Icc.mpr min_le_max

/-- The concrete 1×1×1 signal (single pixel of intensity 5) used to separate
the source's region extraction from the claim's description of it. -/
def regionCexSig : NDArr := ⟨[1, 1, 1], fun _ => 5⟩

/-- The concrete fully out-of-bounds degenerate region used with
`regionCexSig`. -/
def regionCex : Region := ⟨5, 5, 5, 5⟩

theorem extract_spectrum_range_spec_witness :
    (0 : ℕ) < 1 ∧
      (extract_spectrum_range regionCexSig regionCex).isOk = true := by
  obtain ⟨ys, h1, h2, _⟩ :=
    extract_spectrum_range_spec regionCexSig regionCex 1 1 1 rfl
      (by norm_num) (by norm_num)
  exact ⟨by norm_num, by rw [h1]; rfl⟩

/-- C1 counterexample: on the 1×1×1 signal of intensity 5 with the
out-of-bounds degenerate region (5,5,5,5), the source clamps to pixel (0,0)
and returns `[5]`, while the claim's clamp-to-`[0,width]`-then-sum
description yields the all-zero spectrum `[0]`; the two disagree. -/
theorem extract_spectrum_range_counterexample :
    extract_spectrum_range regionCexSig regionCex = .ok [5] ∧
      extract_region_SpecClaim regionCexSig regionCex = .ok [0] ∧
      extract_spectrum_range regionCexSig regionCex ≠
        extract_region_SpecClaim regionCexSig regionCex := by
  have h1 : extract_spectrum_range regionCexSig regionCex = .ok [5] := by
    simp [extract_spectrum_range, regionCexSig, regionCex, clampIdx,
      List.range_succ, Finset.sum_Ico_eq_sum_range]
  have h2 : extract_region_SpecClaim regionCexSig regionCex = .ok [0] := by
    simp [extract_region_SpecClaim, regionCexSig, regionCex,
      List.range_succ]
  refine ⟨h1, h2, ?_⟩
  rw [h1, h2]
  simp

/-! ## ImageExtractor: image_viewer_functions.extract_image_data -/

/-- The result dictionary `extract_image_data` is written to build: the
original data shape, the reduced 2D image, its shape, and the `data_range`
min/max. -/
structure ImageResult where
  data_shape : List ℕ
  image_data : List (List ℚ)
  image_shape : List ℕ
  data_min : ℚ
  data_max : ℚ
  deriving DecidableEq, Repr

/-- `image_viewer_functions.extract_image_data`: the function is broken at
the source level.  Its module cannot even be imported (the body mixes
8- and 12-space indentation, an `IndentationError`, and the module imports
name functions that do not exist), and under any charitable parse the first
statement of its `try` block reads the undefined name `filename` (the body
also references `os`, `constants`, `file_functions`, `signal_idx` and `np`,
none of which are bound), so every call raises `NameError`; the `except`
handler interpolates `filename` again, so even the `return None` path is
unreachable and the `NameError` propagates to the caller.  No `ImageResult`
is ever built for any input. -/
def extract_image_data (a : NDArr) : Except PyErr ImageResult :=
  .error .nameError

/-- The scalar form of the normalization in `SignalService.get_haadf_data`
(the only `[0, 255]` rescaling in the source):
`(image_data - min) / (max - min)` then `* 255`, applied elementwise by
numpy with no flat-image guard; for a flat image (`hi = lo`, so every entry
`v = lo`) the division is `0 / 0`, numpy `nan` — modelled as `none`.  The
trailing `astype(np.uint8)` cast is not modelled. -/
def haadf_normalize (lo hi v : ℚ) : Option ℚ :=
  if hi - lo = 0 then none else some ((v - lo) / (hi - lo) * 255)

/-- C2 (code bug): the claim describes the spec's intended image extraction,
but the source cannot perform it: `extract_image_data` raises `NameError` on
every call (evaluated here on a concrete 2×2 signal) before reducing
anything or building a result, and the only `[0, 255]` rescaling in the
source, in `get_haadf_data`, has no `max == min` guard, so a flat image
(here constant value 5) divides zero by zero and yields `NaN` instead of
being returned unmodified as the claim requires. -/
theorem extract_image_data_broken :
    extract_image_data ⟨[2, 2], fun l => (l.headD 0 : ℚ)⟩ = .error .nameError ∧
      haadf_normalize 5 5 5 = none := by
  constructor
  · rfl
  · rw [haadf_normalize, if_pos]
    norm_num

/-! ## PeakAnalyzer: the FWHM search -/

/-- `SpectrumConverter.calculate_zero_index`: `-offset / scale`, Python true
division, so the result is always a float (it is never converted to `int`
here); a zero scale raises `ZeroDivisionError` when `__init__` computes it. -/
def calculate_zero_index (offset scale : ℚ) : Except PyErr ℚ :=
  if scale = 0 then .error .zeroDivisionError else .ok (-offset / scale)

/-- `SpectrumConverter.calculate_fwhm`: the method ignores its `zero_index`
parameter and uses `self.zero_index`, which `__init__` sets to
`calculate_zero_index()` — always a Python float (true division).
`spectrum_data[self.zero_index]` and `range(self.zero_index + 1, ...)` raise
`TypeError` for any float, integral or not, so every call fails with
`TypeError` (and when `scale == 0` the converter itself cannot be built:
`ZeroDivisionError` in `__init__`). -/
def calculate_fwhm (offset scale : ℚ) (spectrum_data : List ℚ)
    (zero_index : ℤ) : Except PyErr ℕ :=
  match calculate_zero_index offset scale with
  | .error e => .error e
  | .ok _ => .error .typeError

/-- One step of the FWHM search loop shared, token for token, by
`SpectrumConverter.calculate_fwhm` and `data_functions.remove_zero_peak`;
only the latter ever runs it (with a genuine `int` zero index, from
`get_zero_index`).  `l` is the list of remaining values `y[i:]`, `prev` is
`y[i-1]`, and the loop breaks on `|y[i] - half| ≤ tolerance` (result `i`),
or on `y[i] < half` (result: for `i > zero_index + 1` the closer of `i` and
`i-1` with ties to `i-1`, and bare `i` otherwise); exhausting the list
leaves the initial value `zero_index`. -/
def fwhmGo (z : ℕ) (half tol : ℚ) : ℚ → ℕ → List ℚ → ℕ
  | _, _, [] => z
  | prev, i, v :: rest =>
      if |v - half| ≤ tol then i
      else if v < half then
        if z + 1 < i then (if |v - half| < |prev - half| then i else i - 1) else i
      else fwhmGo z half tol v (i + 1) rest

/-- `data_functions.remove_zero_peak`: the tolerance is 5% of the *passed
half height* (`half_zero_height * 0.05`); the scan finds `half_max_index`
starting after `zero_index` (the initial `prev` value `y[zero_index]` is
never read, since the closer-neighbor branch needs `i > zero_index + 1`);
entries `0 .. half_max_index` of a copy of the y-values are then set to `1`.
When `half_max_index` reaches past the end (an out-of-range `zero_index`),
the assignment loop raises `IndexError` and the `except` returns `None`. -/
def remove_zero_peak (y_values : List ℚ) (half_zero_height : ℚ)
    (zero_index : ℕ) : Option (List ℚ) :=
  let tolerance := half_zero_height * (5 / 100)
  let half_max_index := fwhmGo zero_index half_zero_height tolerance
    (y_values.getD zero_index 0) (zero_index + 1) (y_values.drop (zero_index + 1))
  if half_max_index < y_values.length then
    some (y_values.enum.map fun p => if p.1 ≤ half_max_index then 1 else p.2)
  else none

/-- A spectrum value qualifies to stop the FWHM scan: within tolerance of
the half height, or strictly below it. -/
def fwhmHitsV (half tol v : ℚ) : Prop := |v - half| ≤ tol ∨ v < half

/-- Index `j` of the y-values stops the `remove_zero_peak` scan for half
height `half` (tolerance 5% of `half`). -/
def zpHits (y : List ℚ) (half : ℚ) (j : ℕ) : Prop :=
  fwhmHitsV half (half * (5 / 100)) (y.getD j 0)

/-- The `half_max_index` the scan produces when it stops at index `i₀`. -/
def zpVerdict (y : List ℚ) (half : ℚ) (z i₀ : ℕ) : ℕ :=
  if |y.getD i₀ 0 - half| ≤ half * (5 / 100) then i₀
  else if z + 1 < i₀ then
    if |y.getD i₀ 0 - half| < |y.getD (i₀ - 1) 0 - half| then i₀ else i₀ - 1
  else i₀

theorem fwhmGo_of_no_hit (z : ℕ) (half tol : ℚ) (l : List ℚ) :
    ∀ (i : ℕ) (prev : ℚ), (∀ v ∈ l, ¬ fwhmHitsV half tol v) →
      fwhmGo z half tol prev i l = z := by
  induction l with
  | nil => intro i prev _; rfl
  | cons v rest ih =>
      intro i prev hno
      have hv := hno v (by simp)
      have h1 : ¬(|v - half| ≤ tol) := fun h => hv (Or.inl h)
      have h2 : ¬(v < half) := fun h => hv (Or.inr h)
      simp only [fwhmGo, if_neg h1, if_neg h2]
      exact ih (i + 1) v fun u hu => hno u (by simp [hu])

theorem fwhmGo_first_hit (z : ℕ) (half tol : ℚ) (l : List ℚ) :
    ∀ (i : ℕ) (prev : ℚ) (k : ℕ), k < l.length →
      (∀ j, j < k → ¬ fwhmHitsV half tol (l.getD j 0)) →
      fwhmHitsV half tol (l.getD k 0) → z + 1 ≤ i →
      fwhmGo z half tol prev i l =
        (if |l.getD k 0 - half| ≤ tol then i + k
         else if z + 1 < i + k then
           (if |l.getD k 0 - half| < |(if k = 0 then prev else l.getD (k - 1) 0) - half|
             then i + k else i + k - 1)
         else i + k) := by
  induction l with
  | nil => intro i prev k hk; simp at hk
  | cons v rest ih =>
      intro i prev k hk hmin hq hi
      match k with
      | 0 =>
          simp only [List.getD_cons_zero] at hq ⊢
          by_cases h1 : |v - half| ≤ tol
          · simp only [fwhmGo, if_pos h1, Nat.add_zero]
          · have h2 : v < half := hq.resolve_left h1
            simp only [fwhmGo, if_neg h1, if_pos h2, Nat.add_zero]
            simp
      | (k' + 1) =>
          have h0 := hmin 0 (Nat.succ_pos k')
          simp only [List.getD_cons_zero] at h0
          have h1 : ¬(|v - half| ≤ tol) := fun h => h0 (Or.inl h)
          have h2 : ¬(v < half) := fun h => h0 (Or.inr h)
          simp only [fwhmGo, if_neg h1, if_neg h2]
          have hk' : k' < rest.length := by simpa using hk
          have hmin' : ∀ j, j < k' → ¬ fwhmHitsV half tol (rest.getD j 0) := by
            intro j hj
            have := hmin (j + 1) (by omega)
            simpa [List.getD_cons_succ] using this
          have hq' : fwhmHitsV half tol (rest.getD k' 0) := by
            simpa [List.getD_cons_succ] using hq
          rw [ih (i + 1) v k' hk' hmin' hq' (by omega)]
          simp only [List.getD_cons_succ]
          have harith : i + 1 + k' = i + (k' + 1) := by omega
          rw [harith]
          match k' with
          | 0 => simp
          | (k'' + 1) =>
              rw [if_neg (Nat.succ_ne_zero k''), if_neg (Nat.succ_ne_zero (k'' + 1))]
              simp only [Nat.add_sub_cancel, List.getD_cons_succ]

/-- C3 (amended): `SpectrumConverter.calculate_fwhm` never performs the
search — every call fails with `TypeError`, because `self.zero_index` is the
float `-offset / scale`.  The scan the claim describes runs in
`data_functions.remove_zero_peak`, with an integer `zero_index` and a
tolerance equal to 5% of the passed *half* height (2.5% of the height, not
5% of the height): it scans indices strictly after `zero_index` in
increasing order and halts at the first index `i` where either
`|y[i] - half_height| ≤ tolerance` (half_max_index `i`) or
`y[i] < half_height` (half_max_index: whichever of `i` or `i-1` is
numerically closer to `half_height` — except when `i = zero_index + 1`,
where it is `i` unconditionally, with ties going to `i-1`); if neither
condition triggers before the end, `half_max_index` equals `zero_index`;
entries `0 .. half_max_index` of the y-values are then set to `1`. -/
theorem fwhm_search_spec (offset scale : ℚ) (y : List ℚ) (half : ℚ) (z : ℕ)
    (hz : z < y.length) :
    (scale ≠ 0 → ∀ zi : ℤ,
      calculate_fwhm offset scale y zi = .error .typeError) ∧
    ((∀ j, z < j → j < y.length → ¬ zpHits y half j) →
      remove_zero_peak y half z =
        some (y.enum.map fun p => if p.1 ≤ z then 1 else p.2)) ∧
    (∀ i₀, z < i₀ → i₀ < y.length → zpHits y half i₀ →
      (∀ j, z < j → j < i₀ → ¬ zpHits y half j) →
      remove_zero_peak y half z =
        some (y.enum.map fun p =>
          if p.1 ≤ zpVerdict y half z i₀ then 1 else p.2)) := by
  have hdropD : ∀ j, (y.drop (z + 1)).getD j 0 = y.getD (z + 1 + j) 0 := by
    intro j
    rw [List.getD_eq_get?, List.getD_eq_get?, List.get?_drop]
  refine ⟨?_, ?_, ?_⟩
  · intro hs zi
    simp [calculate_fwhm, calculate_zero_index, hs]
  · intro hno
    have hidx : fwhmGo z half (half * (5 / 100)) (y.getD z 0) (z + 1)
        (y.drop (z + 1)) = z := by
      apply fwhmGo_of_no_hit
      intro v hv
      obtain ⟨n, hn⟩ := List.mem_iff_get.mp hv
      have hnlen : (n : ℕ) < y.length - (z + 1) := by
        have := n.isLt
        simpa [List.length_drop] using this
      have hvD : (y.drop (z + 1)).getD (n : ℕ) 0 = v := by
        rw [List.getD_eq_get?, List.get?_eq_get n.isLt, hn]
        rfl
      have hh := hno (z + 1 + (n : ℕ)) (by omega) (by omega)
      rw [zpHits] at hh
      rw [← hdropD] at hh
      rw [hvD] at hh
      exact hh
    simp only [remove_zero_peak]
    rw [hidx, if_pos hz]
  · intro i₀ hi₀ hi₀len hq hmin
    have hk : i₀ - (z + 1) < (y.drop (z + 1)).length := by
      rw [List.length_drop]
      omega
    have hidx : fwhmGo z half (half * (5 / 100)) (y.getD z 0) (z + 1)
        (y.drop (z + 1)) = zpVerdict y half z i₀ := by
      rw [fwhmGo_first_hit z half (half * (5 / 100)) (y.drop (z + 1))
        (z + 1) (y.getD z 0) (i₀ - (z + 1)) hk ?hmin ?hq (le_refl (z + 1))]
      case hmin =>
        intro j hj
        have := hmin (z + 1 + j) (by omega) (by omega)
        rw [zpHits] at this
        rw [← hdropD] at this
        exact this
      case hq =>
        have h1 : z + 1 + (i₀ - (z + 1)) = i₀ := by omega
        rw [hdropD, h1]
        exact hq
      have h1 : z + 1 + (i₀ - (z + 1)) = i₀ := by omega
      rw [zpVerdict, hdropD, h1]
      by_cases hc1 : |y.getD i₀ 0 - half| ≤ half * (5 / 100)
      · rw [if_pos hc1, if_pos hc1]
      · rw [if_neg hc1, if_neg hc1]
        by_cases hc2 : z + 1 < i₀
        · rw [if_pos hc2, if_pos hc2]
          have hk0 : i₀ - (z + 1) ≠ 0 := by omega
          rw [if_neg hk0, hdropD]
          have h2 : z + 1 + (i₀ - (z + 1) - 1) = i₀ - 1 := by omega
          rw [h2]
        · rw [if_neg hc2, if_neg hc2]
    have hv : zpVerdict y half z i₀ < y.length := by
      rw [zpVerdict]
      split_ifs <;> omega
    simp only [remove_zero_peak]
    rw [hidx, if_pos hv]

theorem fwhm_search_spec_witness :
    (0 : ℕ) < 4 ∧ remove_zero_peak [4, 3, 1, 0] 2 0 = some [1, 1, 1, 0] ∧
      calculate_fwhm 0 1 [4, 3, 1, 0] 0 = .error .typeError := by
  have h := fwhm_search_spec 0 1 [4, 3, 1, 0] 2 0 (by norm_num)
  have h1 := h.1 (by norm_num) 0
  have h2 := h.2.2 2 (by norm_num) (by norm_num)
    (by rw [zpHits, fwhmHitsV]; norm_num)
    (by
      intro j hj1 hj2
      have hj : j = 1 := by omega
      subst hj
      rw [zpHits, fwhmHitsV]
      norm_num)
  refine ⟨by norm_num, ?_, h1⟩
  rw [h2]
  have hv : zpVerdict [4, 3, 1, 0] 2 0 2 = 1 := by
    rw [zpVerdict]
    norm_num
  rw [hv]
  rfl

/-- C3 counterexample: the claim says the FWHM search on the spectrum
`[2, -3]` with in-range `zero_index = 0` halts and yields an index (by its
closer-neighbor rule, index `0`, since `|2 - 1| = 1 < 4 = |-3 - 1|`).  The
source's `calculate_fwhm` instead raises `TypeError` at this (and every)
input, because `self.zero_index` is a float; and the scan that does run,
`remove_zero_peak` with half height `1`, produces `half_max_index = 1` —
setting both entries to `1` to give `[1, 1]`, not the `[1, -3]` that
stopping at the closer index `0` would give — because at
`i = zero_index + 1` the closer-neighbor rule is skipped. -/
theorem calculate_fwhm_counterexample :
    calculate_fwhm (-2) 1 [2, -3] 0 = .error .typeError ∧
      remove_zero_peak [2, -3] 1 0 = some [1, 1] ∧
      ([1, 1] : List ℚ) ≠ [1, -3] ∧
      |(2 : ℚ) - 1| < |(-3 : ℚ) - 1| := by
  refine ⟨?_, ?_, ?_, by norm_num⟩
  · norm_num [calculate_fwhm, calculate_zero_index]
  · simp only [remove_zero_peak]
    have hgo : fwhmGo 0 1 (1 * (5 / 100)) ([2, -3].getD 0 0) (0 + 1)
        ([2, -3].drop (0 + 1)) = 1 := by
      show fwhmGo 0 1 (1 * (5 / 100)) ([2, -3].getD 0 0) (0 + 1) [-3] = 1
      rw [fwhmGo]
      norm_num
    rw [hgo]
    rfl
  · simp
    norm_num

/-! ## SignalCache: file_functions.load_file and the CURRENT_FILE store
Signals themselves are opaque to cache handling; they are modelled as
abstract identifiers (ℕ). -/

/-- The module-level `CURRENT_FILE` dictionary:
`{"filepath": None, "data": None}` initially. -/
structure CacheState where
  filepath : Option String
  data : Option (List ℕ)
  deriving DecidableEq, Repr

/-- `file_functions.get_cached_file`: if the cached filepath matches the
request, return the cached data (which may itself be `None`); otherwise
`None`. -/
def file_get_cached_file (st : CacheState) (file_path : String) : Option (List ℕ) :=
  if st.filepath = some file_path then st.data else none

/-- `file_functions.load_file`: check the cache first and return the cached
data on a hit; on a miss run the ordered-fallback load (`loader` models the
whole `hs.load` strategy sequence, `none` meaning every strategy failed,
which the source turns into `ValueError`), normalize to a list, install the
result in the cache and return it.  The third component counts loader
invocations. -/
def load_file (loader : String → Option (List ℕ)) (st : CacheState)
    (filepath : String) : Except PyErr (List ℕ) × CacheState × ℕ :=
  match file_get_cached_file st filepath with
  | some cached_data => (.ok cached_data, st, 0)
  | none =>
      match loader filepath with
      | some signal => (.ok signal, ⟨some filepath, some signal⟩, 1)
      | none => (.error .valueError, st, 1)

/-- C7: starting from the initial (empty) cache, if the first `load_file`
call for a file path succeeds then it returns the loaded signal list and
caches it, and a second consecutive call with the same file path returns the
cached signal list without invoking the loader again: across the two calls
the loader is invoked exactly once. -/
theorem load_file_cache_hit (loader : String → Option (List ℕ)) (fp : String)
    (sigs : List ℕ) (hload : loader fp = some sigs) :
    (load_file loader ⟨none, none⟩ fp).1 = .ok sigs ∧
      (load_file loader (load_file loader ⟨none, none⟩ fp).2.1 fp).1 = .ok sigs ∧
      (load_file loader ⟨none, none⟩ fp).2.2 +
        (load_file loader (load_file loader ⟨none, none⟩ fp).2.1 fp).2.2 = 1 := by
  simp [load_file, file_get_cached_file, hload]

theorem load_file_cache_hit_witness :
    (load_file (fun _fp => some [7]) ⟨none, none⟩ "f").1 = .ok [7] ∧
      (load_file (fun _fp => some [7])
        (load_file (fun _fp => some [7]) ⟨none, none⟩ "f").2.1 "f").1 = .ok [7] ∧
      (load_file (fun _fp => some [7]) ⟨none, none⟩ "f").2.2 +
        (load_file (fun _fp => some [7])
          (load_file (fun _fp => some [7]) ⟨none, none⟩ "f").2.1 "f").2.2 = 1 :=
  load_file_cache_hit (fun _fp => some [7]) "f" [7] rfl

/-! ## constants.get_cached_file: cached lookup with a signal index -/

/-- Python list indexing `xs[i]`: indices in `[0, n)` index from the front,
indices in `[-n, 0)` index from the end, anything else raises `IndexError`. -/
def pyGet (xs : List ℕ) (i : ℤ) : Except PyErr ℕ :=
  if 0 ≤ i ∧ i < (xs.length : ℤ) then .ok (xs.getD i.toNat 0)
  else if -(xs.length : ℤ) ≤ i ∧ i < 0 then .ok (xs.getD (i + xs.length).toNat 0)
  else .error .indexError

/-- The three possible successful results of `constants.get_cached_file`. -/
inductive CachedResult where
  | list (xs : List ℕ)
  | single (s : ℕ)
  | nothing
  deriving DecidableEq, Repr

/-- `utils/constants.get_cached_file`: on a filepath match with non-`None`
data, return `data[signal_idx]` when an index is given (Python indexing, may
raise `IndexError`) and the whole list otherwise; in all other cases return
`None`. -/
def constants_get_cached_file (st : CacheState) (filepath : String)
    (signal_idx : Option ℤ) : Except PyErr CachedResult :=
  match st.data with
  | some xs =>
      if st.filepath = some filepath then
        match signal_idx with
        | some i => (pyGet xs i).map .single
        | none => .ok (.list xs)
      else .ok .nothing
  | none => .ok .nothing

/-- C9: when the cache holds `n` signals for the requested file path, the
cached lookup with an explicit signal index raises `IndexError` exactly for
indices outside `[-n, n-1]`; every negative index in `[-n, -1]` instead
returns the signal counted from the end of the cached list (`xs[i] =
xs[n + i]`, the `(-i)`-th element from the end). -/
theorem constants_get_cached_file_index_spec (st : CacheState) (fp : String)
    (xs : List ℕ) (i : ℤ) (hfp : st.filepath = some fp)
    (hdata : st.data = some xs) :
    (constants_get_cached_file st fp (some i) = .error .indexError ↔
      i < -(xs.length : ℤ) ∨ (xs.length : ℤ) ≤ i) ∧
    (-(xs.length : ℤ) ≤ i → i < 0 →
      constants_get_cached_file st fp (some i) =
        .ok (.single (xs.getD (i + xs.length).toNat 0)) ∧
      xs.getD (i + xs.length).toNat 0 =
        xs.reverse.getD (-i - 1).toNat 0) := by
  obtain ⟨f, d⟩ := st
  simp only at hfp hdata
  subst hfp
  subst hdata
  simp only [constants_get_cached_file, if_pos rfl]
  constructor
  · rw [pyGet]
    by_cases h1 : 0 ≤ i ∧ i < (xs.length : ℤ)
    · rw [if_pos h1]
      simp only [Except.map]
      constructor
      · intro h
        exact absurd h (by simp)
      · intro h
        omega
    · rw [if_neg h1]
      by_cases h2 : -(xs.length : ℤ) ≤ i ∧ i < 0
      · rw [if_pos h2]
        simp only [Except.map]
        constructor
        · intro h
          exact absurd h (by simp)
        · intro h
          omega
      · rw [if_neg h2]
        simp only [Except.map]
        constructor
        · intro h
          omega
        · intro h
          rfl
  · intro hlo hneg
    have h1 : ¬(0 ≤ i ∧ i < (xs.length : ℤ)) := by omega
    have h2 : -(xs.length : ℤ) ≤ i ∧ i < 0 := ⟨hlo, hneg⟩
    rw [pyGet, if_neg h1, if_pos h2]
    refine ⟨rfl, ?_⟩
    have hn : 0 < xs.length := by omega
    have hj : (i + xs.length).toNat < xs.length := by omega
    have hj2 : (-i - 1).toNat < xs.reverse.length := by
      rw [List.length_reverse]
      omega
    rw [List.getD_eq_get?, List.getD_eq_get?,
      List.get?_eq_get hj, List.get?_eq_get hj2]
    simp only [Option.getD_some, List.get_eq_getElem]
    rw [List.getElem_reverse]
    congr 1
    omega

theorem constants_get_cached_file_index_spec_witness :
    constants_get_cached_file ⟨some "f", some [10, 20, 30]⟩ "f" (some (-1)) =
      .ok (.single 30) ∧
      constants_get_cached_file ⟨some "f", some [10, 20, 30]⟩ "f" (some 3) =
        .error .indexError := by
  have h := constants_get_cached_file_index_spec ⟨some "f", some [10, 20, 30]⟩
    "f" [10, 20, 30] (-1) rfl rfl
  have h2 := constants_get_cached_file_index_spec ⟨some "f", some [10, 20, 30]⟩
    "f" [10, 20, 30] 3 rfl rfl
  constructor
  · have h3 := (h.2 (by norm_num) (by norm_num)).1
    rw [h3]
    rfl
  · rw [h2.1]
    norm_num

/-! ## signal_functions.extract_signal_list -/

/-- A signal as seen by the listing code's attribute probing.  The title
lookup (`metadata.General.title` behind `hasattr` guards inside a
`try/except`) may find a title (`ok some`), find none (`ok none`) or raise
(`error`).  The data/shape lookup may find a shape (`ok some`), find no
`data` attribute (`ok none`), or raise a non-`AttributeError` (`error`):
the inner `try` around `shape = sig.data.shape` catches such an exception
(leaving the shape `None`), but `hasattr` suppresses only `AttributeError`,
so the same access re-raises inside the *unguarded*
`get_signal_capabilities(sig)` call.  `type(sig).__name__` always yields a
name. -/
structure ProbeSig where
  titleProbe : Except Unit (Option String)
  dataShape : Except Unit (Option (List ℕ))
  typeName : String

/-- Capability flags from a probed shape: no data/shape means no
capabilities; otherwise 1D/3D data can be a spectrum and 2D/3D an image. -/
def capsOf (osh : Option (List ℕ)) : Bool × Bool :=
  match osh with
  | none => (false, false)
  | some sh =>
      ((sh.length == 1) || (sh.length == 3), (sh.length == 2) || (sh.length == 3))

/-- `signal_functions.get_signal_capabilities`: its `hasattr` guards
suppress only missing attributes, so a data/shape access that raises a
non-`AttributeError` propagates out of this call — which the listing loop
does not guard. -/
def get_signal_capabilities (sig : ProbeSig) : Except Unit (Bool × Bool) :=
  match sig.dataShape with
  | .error e => .error e
  | .ok osh => .ok (capsOf osh)

/-- One entry of the signal listing. -/
structure SigInfo where
  index : ℕ
  title : String
  type : String
  shape : Option (List ℕ)
  capabilities : Bool × Bool
  deriving Repr

/-- The per-signal dictionary built by the `extract_signal_list` loop body:
title and shape fall back to `"Signal " + str(idx)` and `None` when their
individually guarded probes fail; the capabilities come from the
already-evaluated `get_signal_capabilities` call. -/
def mkSigInfo (idx : ℕ) (sig : ProbeSig) (capabilities : Bool × Bool) : SigInfo :=
  { index := idx
    title :=
      match sig.titleProbe with
      | .ok (some t) => t
      | _ => "Signal " ++ toString idx
    type := sig.typeName
    shape :=
      match sig.dataShape with
      | .ok osh => osh
      | .error _ => none
    capabilities := capabilities }

/-- The `for idx, sig in enumerate(signal_list)` loop of
`extract_signal_list`: when the unguarded `get_signal_capabilities` call
raises, the outer `except ... continue` skips the signal; otherwise the info
entry is appended. -/
def extractLoop (idx : ℕ) : List ProbeSig → List SigInfo
  | [] => []
  | sig :: rest =>
      match get_signal_capabilities sig with
      | .error _ => extractLoop (idx + 1) rest
      | .ok caps => mkSigInfo idx sig caps :: extractLoop (idx + 1) rest

/-- `signal_functions.extract_signal_list`: a `None` input raises
`ValueError("File data is None")`; otherwise the enumeration loop builds the
listing. -/
def extract_signal_list (xs : Option (List ProbeSig)) : Except PyErr (List SigInfo) :=
  match xs with
  | none => .error .valueError
  | some l => .ok (extractLoop 0 l)

theorem extractLoop_mem_iff (l : List ProbeSig) :
    ∀ (start : ℕ) (info : SigInfo),
      info ∈ extractLoop start l ↔
        ∃ k sig osh, l.get? k = some sig ∧ sig.dataShape = .ok osh ∧
          info = mkSigInfo (start + k) sig (capsOf osh) := by
  induction l with
  | nil =>
      intro start info
      simp [extractLoop]
  | cons sig rest ih =>
      intro start info
      rcases hds : sig.dataShape with e | osh
      · have hloop : extractLoop start (sig :: rest) = extractLoop (start + 1) rest := by
          simp only [extractLoop, get_signal_capabilities, hds]
        rw [hloop, ih (start + 1) info]
        constructor
        · rintro ⟨k, sig2, osh2, hg, hd, hi⟩
          refine ⟨k + 1, sig2, osh2, ?_, hd, ?_⟩
          · rw [List.get?_cons_succ]
            exact hg
          · have harith : start + 1 + k = start + (k + 1) := by omega
            rw [hi, harith]
        · rintro ⟨k, sig2, osh2, hg, hd, hi⟩
          match k with
          | 0 =>
              rw [List.get?_cons_zero] at hg
              injection hg with hsig
              subst hsig
              rw [hds] at hd
              exact absurd hd (by simp)
          | (k2 + 1) =>
              rw [List.get?_cons_succ] at hg
              refine ⟨k2, sig2, osh2, hg, hd, ?_⟩
              have harith : start + (k2 + 1) = start + 1 + k2 := by omega
              rw [hi, harith]
      · have hloop : extractLoop start (sig :: rest) =
            mkSigInfo start sig (capsOf osh) :: extractLoop (start + 1) rest := by
          simp only [extractLoop, get_signal_capabilities, hds]
        rw [hloop, List.mem_cons, ih (start + 1) info]
        constructor
        · rintro (h | ⟨k, sig2, osh2, hg, hd, hi⟩)
          · refine ⟨0, sig, osh, rfl, hds, ?_⟩
            rw [h, Nat.add_zero]
          · refine ⟨k + 1, sig2, osh2, ?_, hd, ?_⟩
            · rw [List.get?_cons_succ]
              exact hg
            · have harith : start + 1 + k = start + (k + 1) := by omega
              rw [hi, harith]
        · rintro ⟨k, sig2, osh2, hg, hd, hi⟩
          match k with
          | 0 =>
              left
              rw [List.get?_cons_zero] at hg
              injection hg with hsig
              subst hsig
              rw [hds] at hd
              injection hd with hosh
              subst hosh
              rw [hi, Nat.add_zero]
          | (k2 + 1) =>
              right
              rw [List.get?_cons_succ] at hg
              refine ⟨k2, sig2, osh2, hg, hd, ?_⟩
              have harith : start + (k2 + 1) = start + 1 + k2 := by omega
              rw [hi, harith]

theorem extractLoop_start_le (l : List ProbeSig) (start : ℕ) (info : SigInfo)
    (h : info ∈ extractLoop start l) : start ≤ info.index := by
  obtain ⟨k, sig, osh, h1, h2, h3⟩ := (extractLoop_mem_iff l start info).mp h
  rw [h3]
  show start ≤ start + k
  omega

theorem extractLoop_sorted (l : List ProbeSig) :
    ∀ start : ℕ, ((extractLoop start l).map SigInfo.index).Sorted (· < ·) := by
  induction l with
  | nil =>
      intro start
      simp [extractLoop]
  | cons sig rest ih =>
      intro start
      rcases hds : sig.dataShape with e | osh
      · have hloop : extractLoop start (sig :: rest) = extractLoop (start + 1) rest := by
          simp only [extractLoop, get_signal_capabilities, hds]
        rw [hloop]
        exact ih (start + 1)
      · have hloop : extractLoop start (sig :: rest) =
            mkSigInfo start sig (capsOf osh) :: extractLoop (start + 1) rest := by
          simp only [extractLoop, get_signal_capabilities, hds]
        rw [hloop, List.map_cons, List.sorted_cons]
        refine ⟨?_, ih (start + 1)⟩
        intro b hb
        obtain ⟨info, hinfo, hidx⟩ := List.mem_map.mp hb
        have hle := extractLoop_start_le rest (start + 1) info hinfo
        show (mkSigInfo start sig (capsOf osh)).index < b
        have hmk : (mkSigInfo start sig (capsOf osh)).index = start := rfl
        omega

/-! ## Theorems for claim C10 -/

/-- C10 (amended): a `None` input raises `ValueError`; otherwise the listing
holds summary entries in input order (strictly increasing `index` fields),
each included entry's `index` equal to that signal's position in the input
list, and every entry coming from some input position.  A signal whose
guarded title probing raises is *included*, with the fallback title
`"Signal " + str(idx)` — a failing guarded probe alone never removes a
signal or aborts the listing — but a signal whose data/shape access raises a
non-`AttributeError` *is skipped*: the inner shape guard catches the
exception, the unguarded `get_signal_capabilities` call re-raises it, and
the outer `except` continues with the next signal. -/
theorem extract_signal_list_spec (l : List ProbeSig) :
    extract_signal_list none = .error .valueError ∧
    ∃ infos, extract_signal_list (some l) = .ok infos ∧
      ((infos.map SigInfo.index).Sorted (· < ·)) ∧
      (∀ k sig, l.get? k = some sig →
        (sig.dataShape = .error () → ∀ info ∈ infos, info.index ≠ k) ∧
        (∀ osh, sig.dataShape = .ok osh →
          ∃ info ∈ infos, info.index = k ∧ info.shape = osh ∧
            info.type = sig.typeName ∧ info.capabilities = capsOf osh ∧
            (sig.titleProbe = .error () →
              info.title = "Signal " ++ toString k))) ∧
      (∀ info ∈ infos, ∃ k sig, l.get? k = some sig ∧ info.index = k) := by
  refine ⟨rfl, extractLoop 0 l, rfl, extractLoop_sorted l 0, ?_, ?_⟩
  · intro k sig hk
    constructor
    · intro hds info hinfo heq
      obtain ⟨k2, sig2, osh2, h1, h2, h3⟩ := (extractLoop_mem_iff l 0 info).mp hinfo
      have hidx : info.index = k2 := by
        rw [h3]
        show 0 + k2 = k2
        omega
      have hk2 : k2 = k := by omega
      subst hk2
      rw [hk] at h1
      injection h1 with hsig
      subst hsig
      rw [hds] at h2
      exact absurd h2 (by simp)
    · intro osh hds
      refine ⟨mkSigInfo k sig (capsOf osh), ?_, rfl, ?_, rfl, rfl, ?_⟩
      · apply (extractLoop_mem_iff l 0 _).mpr
        refine ⟨k, sig, osh, hk, hds, ?_⟩
        rw [Nat.zero_add]
      · show (match sig.dataShape with | .ok osh2 => osh2 | .error _ => none) = osh
        rw [hds]
      · intro ht
        show (match sig.titleProbe with
          | .ok (some t) => t
          | _ => "Signal " ++ toString k) = "Signal " ++ toString k
        rw [ht]
  · intro info hinfo
    obtain ⟨k, sig, osh, h1, h2, h3⟩ := (extractLoop_mem_iff l 0 info).mp hinfo
    refine ⟨k, sig, h1, ?_⟩
    rw [h3]
    show 0 + k = k
    omega

/-- The concrete signal whose metadata (title) probing raises but whose
data/shape probe finds no data attribute: the listing must include it with
the fallback title. -/
def badProbeSig : ProbeSig := ⟨.error (), .ok none, "X"⟩

/-- The concrete signal whose data/shape access raises a
non-`AttributeError`, exercising the outer except/continue skip path. -/
def skipProbeSig : ProbeSig := ⟨.ok none, .error (), "Y"⟩

theorem extract_signal_list_spec_witness :
    (0 : ℕ) < 2 ∧
      (extract_signal_list (some [badProbeSig, skipProbeSig])).isOk = true := by
  obtain ⟨-, infos, h1, -, h2, -⟩ :=
    extract_signal_list_spec [badProbeSig, skipProbeSig]
  obtain ⟨info, hmem, hidx, -⟩ := (h2 0 badProbeSig rfl).2 none rfl
  exact ⟨by norm_num, by rw [h1]; rfl⟩

/-- C10 counterexample: a one-signal list whose only signal's metadata
probing raises still produces a one-entry listing — the signal is included
with the fallback title `"Signal 0"`, shape `None` and no capabilities — not
the empty listing that the claimed skip-on-any-probe-exception behavior
would produce. -/
theorem extract_signal_list_counterexample :
    extract_signal_list (some [badProbeSig]) =
      .ok [{ index := 0, title := "Signal 0", type := "X", shape := none,
             capabilities := (false, false) }] ∧
      (1 : ℕ) ≠ 0 := by
  constructor
  · rfl
  · norm_num
